import Mathlib

deriving instance DecidableEq for Except

/-!
Verification development for the conuredb storage engine core.

The definitions below are a shallow embedding of the Go sources of the
repository: `btree/node.go` (node model and codec), `btree/btree.go`
(B-tree search and insert), the storage/pager file (header codec and the
transaction lifecycle, the variant whose header region occupies a full
page) and the node-pool allocator.  Machine integers are modelled as
`Nat` with explicit `% 2^w` where the Go code truncates or wraps; byte
slices are `List Nat`; fallible Go functions return `Except`/`Option`;
Go's in-place mutation of cache-resident node objects is modelled by
writing the updated node value back into the cache at its id
(`touchNode`); file I/O is modelled by an event trace plus an
offset-indexed page map, and fsync failure by a boolean oracle passed
to commit.
-/

namespace Conure

set_option maxRecDepth 40000

/-- PAGE_SIZE: size of a serialised node page in bytes (node.go `NodeSize`). -/
def NodeSize : Nat := 4096

/-- Maximum key size in bytes (node.go `MaxKeySize`). -/
def MaxKeySize : Nat := 128

/-- Maximum value size in bytes (node.go `MaxValueSize`). -/
def MaxValueSize : Nat := 1024

/-- Fixed header charge used by the size estimator (node.go `NodeHeaderSize`). -/
def NodeHeaderSize : Nat := 16

/-- Maximum number of items in a node (btree.go `MaxItems`). -/
def MaxItems : Nat := 255

/-- Minimum number of items in a node (btree.go `MinItems = MaxItems / 2`). -/
def MinItems : Nat := MaxItems / 2

/-- File magic number (storage `MagicNumber = 0x434F4E55`). -/
def MagicNumber : Nat := 0x434F4E55

/-- File format version (storage `Version`). -/
def FormatVersion : Nat := 1

/-- Header region size: one full page (storage `HeaderSize = NodeSize`). -/
def HeaderSize : Nat := NodeSize

/-- Leaf node tag (node.go `LeafNode`, the `NodeType` value 0). -/
def LeafNode : Nat := 0

/-- Internal node tag (node.go `InternalNode`, the `NodeType` value 1). -/
def InternalNode : Nat := 1

/-- Little-endian encoding of `x` on `w` bytes (semantics of Go
`binary.Write(..., binary.LittleEndian, x)` for a `w`-byte unsigned integer:
the value is taken modulo `2^(8w)`). -/
def bytesLE : Nat → Nat → List Nat
  | 0, _ => []
  | w + 1, x => x % 256 :: bytesLE w (x / 256)

/-- Little-endian decoding of `w` bytes off the front of a byte list
(semantics of Go `binary.Read` for a `w`-byte unsigned integer; `none`
models the `io.EOF`/`io.ErrUnexpectedEOF` error on short data). -/
def readLE : Nat → List Nat → Option (Nat × List Nat)
  | 0, rest => some (0, rest)
  | _ + 1, [] => none
  | w + 1, b :: rest =>
    match readLE w rest with
    | some (v, r) => some (b + 256 * v, r)
    | none => none

/-- Lexicographic byte comparison, the semantics of Go `bytes.Compare`. -/
def compareBytes : List Nat → List Nat → Ordering
  | [], [] => .eq
  | [], _ :: _ => .lt
  | _ :: _, [] => .gt
  | a :: as, b :: bs =>
    if a < b then .lt else if b < a then .gt else compareBytes as bs

/-- Error kinds of the engine (Go uses `error` values; we keep one
constructor per distinct failure site reachable in the embedded code). -/
inductive DBError where
  | keyNotFound
  | keyTooLarge
  | valueTooLarge
  | txnAlreadyOpen
  | noTxnInProgress
  | nodeSizeExceeded (size : Nat)
  | headerOverflow (size : Nat)
  | dirtyNodeMissing (id : Nat)
  | shortRead (id : Nat)
  | badNodeData (id : Nat)
  | addChildOnLeaf
  | invalidPosition
  | indexPanic
  | syncFailed
  | outOfFuel
deriving DecidableEq, Repr

/-- Item: a key plus (for leaves) a value (node.go `Item`). -/
structure Item where
  key : List Nat
  value : List Nat
deriving DecidableEq, Repr

instance : Inhabited Item := ⟨⟨[], []⟩⟩

/-- Node: the unit of storage (node.go `Node`).  `nodeType` is the raw
`uint8` tag (0 = leaf, 1 = internal), `count` the redundant `uint16`
item count, `parent` the parent page id (0 for the root). -/
structure Node where
  id : Nat
  nodeType : Nat
  count : Nat
  parent : Nat
  items : List Item
  children : List Nat
deriving DecidableEq, Repr

instance : Inhabited Node := ⟨⟨0, 0, 0, 0, [], []⟩⟩

/-- node.go `NewLeafNode`. -/
def NewLeafNode (id : Nat) : Node :=
  { id := id, nodeType := LeafNode, count := 0, parent := 0, items := [], children := [] }

/-- node.go `NewInternalNode`. -/
def NewInternalNode (id : Nat) : Node :=
  { id := id, nodeType := InternalNode, count := 0, parent := 0, items := [], children := [] }

/-- Insertion position scan of node.go `AddItem`: keep items with key
strictly below the new key, insert before the first other item. -/
def addItemList (item : Item) : List Item → List Item
  | [] => [item]
  | x :: xs =>
    if compareBytes x.key item.key = .lt then x :: addItemList item xs
    else item :: x :: xs

/-- node.go `AddItem`: sorted insert, `count++` (a `uint16` increment). -/
def Node.AddItem (n : Node) (item : Item) : Node :=
  { n with items := addItemList item n.items, count := (n.count + 1) % 2 ^ 16 }

/-- node.go `AddChild`: insert a child pointer at `pos` (internal only). -/
def Node.AddChild (n : Node) (pos : Nat) (child : Nat) : Except DBError Node :=
  if n.nodeType ≠ InternalNode then .error .addChildOnLeaf
  else if pos > n.children.length then .error .invalidPosition
  else .ok { n with children := n.children.insertIdx pos child }

/-- Item read at an `Int` index (Go indexes with `int`; callers stay in
range, out-of-range reads would panic and never occur on the paths we run). -/
def itemAt (its : List Item) (i : Int) : Item := its.getD i.toNat default

/-- Binary-search loop of node.go `FindKey` (indices are Go `int`s).  The
loop shrinks `high + 1 - low` on every iteration, so fuel
`items.length + 2` always suffices; fuel exhaustion is unreachable. -/
def findKeyAux (its : List Item) (key : List Nat) : Nat → Int → Int → Int
  | 0, _, _ => -1
  | fuel + 1, low, high =>
    if low ≤ high then
      match compareBytes (itemAt its ((low + high) / 2)).key key with
      | .eq => (low + high) / 2
      | .lt => findKeyAux its key fuel ((low + high) / 2 + 1) high
      | .gt => findKeyAux its key fuel low ((low + high) / 2 - 1)
    else -1

/-- node.go `FindKey`: index of `key` in `items`, or `-1` if absent. -/
def Node.FindKey (n : Node) (key : List Nat) : Int :=
  findKeyAux n.items key (n.items.length + 2) 0 ((n.items.length : Int) - 1)

/-- Binary-search loop of node.go `FindChildPos`; same fuel remark as for
`findKeyAux`. -/
def findChildPosAux (its : List Item) (key : List Nat) : Nat → Nat → Nat → Nat
  | 0, low, _ => low
  | fuel + 1, low, high =>
    if low < high then
      if compareBytes key (its.getD ((low + high) / 2) default).key = .lt then
        findChildPosAux its key fuel low ((low + high) / 2)
      else
        findChildPosAux its key fuel ((low + high) / 2 + 1) high
    else low

/-- node.go `FindChildPos`: first child index whose subtree may hold `key`
(`-1` on a leaf). -/
def Node.FindChildPos (n : Node) (key : List Nat) : Int :=
  if n.nodeType ≠ InternalNode then -1
  else (findChildPosAux n.items key (n.items.length + 2) 0 n.items.length : Int)

/-- Per-item byte charge of btree.go `estimateNodeSize`. -/
def itemSize (it : Item) : Nat := 2 + it.key.length + 4 + it.value.length

/-- btree.go `estimateNodeSize`: `NodeHeaderSize` plus item charges plus,
for internal nodes, 8 bytes per child pointer (`withNewChild ≥ 0` adds one). -/
def estimateNodeSize (n : Node) (withItem : Option Item) (withNewChild : Int) : Nat :=
  NodeHeaderSize + (n.items.map itemSize).sum
    + (match withItem with | some it => itemSize it | none => 0)
    + (if n.nodeType = InternalNode then
        8 * (n.children.length + (if 0 ≤ withNewChild then 1 else 0))
      else 0)

/-- Wire bytes of one item (node.go `Serialize` loop body):
`u16` key length, key bytes, `u32` value length, value bytes. -/
def itemBytes (it : Item) : List Nat :=
  bytesLE 2 it.key.length ++ it.key ++ bytesLE 4 it.value.length ++ it.value

/-- Child-pointer section (internal nodes only), `u64` per child. -/
def childrenBytes (n : Node) : List Nat :=
  if n.nodeType = InternalNode then (n.children.map (bytesLE 8)).flatten else []

/-- Exact byte sequence node.go `Serialize` accumulates before padding:
`u64` id, `u8` kind, `u16` count, `u64` parent (written back to back, no
padding between fields), then items, then children. -/
def serializeContent (n : Node) : List Nat :=
  bytesLE 8 n.id ++ [n.nodeType % 256] ++ bytesLE 2 n.count ++ bytesLE 8 n.parent
    ++ (n.items.map itemBytes).flatten ++ childrenBytes n

/-- Wire size of one item record: `2 + key_len + 4 + value_len`. -/
def itemWireSize (it : Item) : Nat := 2 + it.key.length + 4 + it.value.length

/-- Pre-padding size of a serialised node, i.e. Go's `buf.Len()` at the
size check in `Serialize`: 19 header bytes (8 id + 1 kind + 2 count +
8 parent), the item records, and 8 bytes per child for internal nodes.
`contentSize_eq_length` below proves this equal to
`(serializeContent n).length`; stating it arithmetically lets concrete
runs evaluate the size check without materialising the page. -/
def contentSize (n : Node) : Nat :=
  19 + (n.items.map itemWireSize).sum
    + (if n.nodeType = InternalNode then 8 * n.children.length else 0)

/-- node.go `Serialize`: refuse if the content exceeds `NodeSize`, else pad
with zero bytes to exactly `NodeSize`. -/
def Node.Serialize (n : Node) : Except DBError (List Nat) :=
  if contentSize n > NodeSize then
    .error (.nodeSizeExceeded (contentSize n))
  else
    .ok (serializeContent n ++ List.replicate (NodeSize - contentSize n) 0)

/-- Read exactly `k` bytes (Go `io.ReadFull`; `none` on short data). -/
def readExact (k : Nat) (l : List Nat) : Option (List Nat × List Nat) :=
  if k ≤ l.length then some (l.take k, l.drop k) else none

/-- Item-parsing loop of node.go `DeserializeNode`. -/
def parseItems : Nat → List Nat → Option (List Item × List Nat)
  | 0, rest => some ([], rest)
  | c + 1, rest =>
    match readLE 2 rest with
    | none => none
    | some (klen, r1) =>
      match readExact klen r1 with
      | none => none
      | some (key, r2) =>
        match readLE 4 r2 with
        | none => none
        | some (vlen, r3) =>
          match readExact vlen r3 with
          | none => none
          | some (value, r4) =>
            match parseItems c r4 with
            | none => none
            | some (its, r5) => some (⟨key, value⟩ :: its, r5)

/-- Child-pointer parsing loop of node.go `DeserializeNode`. -/
def parseIds : Nat → List Nat → Option (List Nat × List Nat)
  | 0, rest => some ([], rest)
  | c + 1, rest =>
    match readLE 8 rest with
    | none => none
    | some (cid, r1) =>
      match parseIds c r1 with
      | none => none
      | some (ids, r2) => some (cid :: ids, r2)

/-- node.go `DeserializeNode`: reject pages that are not exactly `NodeSize`
bytes, then parse header fields, `count` items and, when the kind byte is
`InternalNode`, `count + 1` child pointers; trailing padding is ignored. -/
def DeserializeNode (data : List Nat) : Option Node :=
  if data.length ≠ NodeSize then none
  else
    match readLE 8 data with
    | none => none
    | some (nid, r1) =>
      match readLE 1 r1 with
      | none => none
      | some (kind, r2) =>
        match readLE 2 r2 with
        | none => none
        | some (cnt, r3) =>
          match readLE 8 r3 with
          | none => none
          | some (par, r4) =>
            match parseItems cnt r4 with
            | none => none
            | some (its, r5) =>
              if kind = InternalNode then
                match parseIds (cnt + 1) r5 with
                | none => none
                | some (ids, _) =>
                  some { id := nid, nodeType := kind, count := cnt, parent := par,
                         items := its, children := ids }
              else
                some { id := nid, nodeType := kind, count := cnt, parent := par,
                       items := its, children := [] }

/-- NodePool: the page allocator (`freeNodeIDs` stack plus `nextNodeID`,
which in Go is a `uint64`). -/
structure NodePool where
  freeNodeIDs : List Nat
  nextNodeID : Nat
deriving DecidableEq, Repr

/-- `NewNodePool`: id 0 is reserved, allocation starts at 1. -/
def NewNodePool : NodePool := { freeNodeIDs := [], nextNodeID := 1 }

/-- `NodePool.Allocate`: pop the last free id (LIFO) if any, else hand out
`nextNodeID` and increment it (a `uint64` increment, hence `% 2^64`). -/
def NodePool.Allocate (p : NodePool) : Nat × NodePool :=
  if p.freeNodeIDs.isEmpty then
    (p.nextNodeID, { p with nextNodeID := (p.nextNodeID + 1) % 2 ^ 64 })
  else
    (p.freeNodeIDs.getLastD 0, { p with freeNodeIDs := p.freeNodeIDs.dropLast })

/-- `NodePool.Free`: no-op for id 0, else append to the free list. -/
def NodePool.Free (p : NodePool) (id : Nat) : NodePool :=
  if id = 0 then p else { p with freeNodeIDs := p.freeNodeIDs ++ [id] }

/-- `NodePool.Stats`: `(nextNodeID, free count)`. -/
def NodePool.Stats (p : NodePool) : Nat × Nat := (p.nextNodeID, p.freeNodeIDs.length)

/-- An allocator call, for stating which pool states the program can reach. -/
inductive PoolOp where
  | alloc
  | free (id : Nat)
deriving DecidableEq, Repr

/-- Apply one allocator call, discarding `Allocate`'s return value. -/
def poolStep (p : NodePool) : PoolOp → NodePool
  | .alloc => (p.Allocate).2
  | .free id => p.Free id

/-- Pool state after a call sequence starting from `NewNodePool`. -/
def runPool (ops : List PoolOp) : NodePool := ops.foldl poolStep NewNodePool

/-- File I/O event: a positioned write (`WriteAt`) or an fsync. -/
inductive IOEvent where
  | writeAt (offset : Int) (data : List Nat)
  | fsync
deriving DecidableEq, Repr

/-- Storage: the pager state (storage source `Storage`).  The backing file
is modelled by the ordered event trace `events` plus the page map
`diskPages` (offset of the last write wins); the node cache is an
association list with the newest binding first. -/
structure Storage where
  events : List IOEvent
  diskPages : List (Int × List Nat)
  nodeCache : List (Nat × Node)
  rootNodeID : Nat
  nodePool : NodePool
  dirtyNodes : List Nat
  transaction : Bool
  originalRoot : Nat
deriving DecidableEq, Repr

/-- Cache lookup (newest binding first). -/
def cacheGet (c : List (Nat × Node)) (id : Nat) : Option Node :=
  match c.find? (fun p => p.1 == id) with
  | some p => some p.2
  | none => none

/-- Page-map lookup. -/
def diskGet (d : List (Int × List Nat)) (off : Int) : Option (List Nat) :=
  match d.find? (fun p => p.1 == off) with
  | some p => some p.2
  | none => none

/-- Model of a Go in-place mutation of a cache-resident node object: the
cache binding at the node's id is replaced by the updated value. -/
def touchNode (s : Storage) (n : Node) : Storage :=
  { s with nodeCache := (n.id, n) :: s.nodeCache }

/-- File offset of node `id`: `HeaderSize + (id − 1) · NodeSize`, computed
in Go on a `uint64` reinterpreted as `int64` (so id 0 maps below the
header, as in the source). -/
def nodeOffset (id : Nat) : Int := (HeaderSize : Int) + ((id : Int) - 1) * (NodeSize : Int)

/-- How many free ids fit in the header page after the fixed fields
(storage `maxFree`, with `fixedFields = 4 + 4 + 8 + 8 + 4`). -/
def maxFreeInHeader : Nat := (HeaderSize - 28) / 8

/-- Bytes of the header accumulated by storage `writeHeader` before
padding: magic, version, root id, next id, bounded free count, then the
first `min free_count maxFree` free ids, all little-endian. -/
def headerContent (s : Storage) : List Nat :=
  bytesLE 4 MagicNumber ++ bytesLE 4 FormatVersion ++ bytesLE 8 s.rootNodeID
    ++ bytesLE 8 (s.nodePool.Stats).1
    ++ bytesLE 4 (min s.nodePool.freeNodeIDs.length maxFreeInHeader)
    ++ ((s.nodePool.freeNodeIDs.take maxFreeInHeader).map (bytesLE 8)).flatten

/-- The full header page: content zero-padded to `HeaderSize`. -/
def headerPage (s : Storage) : List Nat :=
  headerContent s ++ List.replicate (HeaderSize - (headerContent s).length) 0

/-- storage `writeHeader`: build the bounded header page and write it with
a single `WriteAt` at offset 0. -/
def Storage.writeHeader (s : Storage) : Except DBError Unit × Storage :=
  if (headerContent s).length > HeaderSize then
    (.error (.headerOverflow (headerContent s).length), s)
  else
    (.ok (), { s with
      events := s.events ++ [.writeAt 0 (headerPage s)],
      diskPages := (0, headerPage s) :: s.diskPages })

/-- storage `writeNode`: serialise (may fail with `NodeSizeExceeded`) and
write the page at the node's offset. -/
def Storage.writeNode (s : Storage) (n : Node) : Except DBError Unit × Storage :=
  match n.Serialize with
  | .error e => (.error e, s)
  | .ok data =>
    (.ok (), { s with
      events := s.events ++ [.writeAt (nodeOffset n.id) data],
      diskPages := (nodeOffset n.id, data) :: s.diskPages })

/-- storage `readNode`: read the page at the node's offset (a missing page
models a short read) and deserialise it. -/
def Storage.readNode (s : Storage) (id : Nat) : Except DBError Node :=
  match diskGet s.diskPages (nodeOffset id) with
  | none => .error (.shortRead id)
  | some data =>
    match DeserializeNode data with
    | none => .error (.badNodeData id)
    | some n => .ok n

/-- storage `GetNode`: cache hit, else read from disk and cache the result. -/
def Storage.GetNode (s : Storage) (id : Nat) : Except DBError Node × Storage :=
  match cacheGet s.nodeCache id with
  | some n => (.ok n, s)
  | none =>
    match s.readNode id with
    | .error e => (.error e, s)
    | .ok n => (.ok n, { s with nodeCache := (id, n) :: s.nodeCache })

/-- storage `GetRootNode`. -/
def Storage.GetRootNode (s : Storage) : Except DBError Node × Storage :=
  s.GetNode s.rootNodeID

/-- storage `PutNode`: inside a transaction, mark dirty and update the
cache; outside, write immediately and then cache. -/
def Storage.PutNode (s : Storage) (n : Node) : Except DBError Unit × Storage :=
  if s.transaction then
    (.ok (), { s with dirtyNodes := s.dirtyNodes ++ [n.id],
                      nodeCache := (n.id, n) :: s.nodeCache })
  else
    match s.writeNode n with
    | (.error e, s1) => (.error e, s1)
    | (.ok _, s1) => (.ok (), { s1 with nodeCache := (n.id, n) :: s1.nodeCache })

/-- storage `CloneNode`: allocate a fresh id, deep-copy the node under the
new id (parent preserved, children copied only for internal nodes), cache
it, and mark it dirty (inside a transaction) or write it immediately. -/
def Storage.CloneNode (s : Storage) (n : Node) : Except DBError Node × Storage :=
  let alloc := s.nodePool.Allocate
  let newNode : Node :=
    { id := alloc.1, nodeType := n.nodeType, count := n.count, parent := n.parent,
      items := n.items,
      children := if n.nodeType = InternalNode then n.children else [] }
  let s1 := { s with nodePool := alloc.2, nodeCache := (alloc.1, newNode) :: s.nodeCache }
  if s1.transaction then
    (.ok newNode, { s1 with dirtyNodes := s1.dirtyNodes ++ [alloc.1] })
  else
    match s1.writeNode newNode with
    | (.error e, s2) => (.error e, s2)
    | (.ok _, s2) => (.ok newNode, s2)

/-- storage `SetRootNode`: install the new root id, cache the node, mark
it dirty; header persistence is deferred inside a transaction. -/
def Storage.SetRootNode (s : Storage) (n : Node) : Except DBError Unit × Storage :=
  let s1 := { s with rootNodeID := n.id,
                     nodeCache := (n.id, n) :: s.nodeCache,
                     dirtyNodes := s.dirtyNodes ++ [n.id] }
  if s1.transaction then (.ok (), s1) else s1.writeHeader

/-- storage `BeginTransaction`. -/
def Storage.BeginTransaction (s : Storage) : Except DBError Unit × Storage :=
  if s.transaction then (.error .txnAlreadyOpen, s)
  else (.ok (), { s with transaction := true, originalRoot := s.rootNodeID, dirtyNodes := [] })

/-- Dirty-node write loop of storage `CommitTransaction`: look each dirty
id up in the cache and write its page. -/
def writeDirty (s : Storage) : List Nat → Except DBError Unit × Storage
  | [] => (.ok (), s)
  | id :: rest =>
    match cacheGet s.nodeCache id with
    | none => (.error (.dirtyNodeMissing id), s)
    | some n =>
      match s.writeNode n with
      | (.error e, s1) => (.error e, s1)
      | (.ok _, s1) => writeDirty s1 rest

/-- storage `CommitTransaction`: write every dirty node, write the header,
fsync (`fsyncOk` is the oracle for `file.Sync()`), and only then clear the
transaction flag and the dirty set.  Any failure returns the error with
the transaction still open, as in the source. -/
def Storage.CommitTransaction (s : Storage) (fsyncOk : Bool) : Except DBError Unit × Storage :=
  if !s.transaction then (.error .noTxnInProgress, s)
  else
    match writeDirty s s.dirtyNodes with
    | (.error e, s1) => (.error e, s1)
    | (.ok _, s1) =>
      match s1.writeHeader with
      | (.error e, s2) => (.error e, s2)
      | (.ok _, s2) =>
        if fsyncOk then
          (.ok (), { s2 with events := s2.events ++ [.fsync],
                             transaction := false, dirtyNodes := [] })
        else (.error .syncFailed, s2)

/-- storage `abortTransaction`: restore the original root and clear the
transaction state; allocated ids are not returned (they leak). -/
def Storage.abortTransaction (s : Storage) : Storage :=
  if !s.transaction then s
  else { s with rootNodeID := s.originalRoot, transaction := false, dirtyNodes := [] }

/-- Recursion fuel for tree walks (the Go code recurses on the tree depth;
the fuel only bounds the modelled recursion and is never exhausted in any
run appearing in a theorem below). -/
def defaultFuel : Nat := 64

/-- btree.go `search`: linear `bytes.Equal` scan in a leaf, else descend
through `FindChildPos`. -/
def searchF : Nat → Storage → Node → List Nat → Except DBError (List Nat) × Storage
  | 0, s, _, _ => (.error .outOfFuel, s)
  | fuel + 1, s, node, key =>
    if node.nodeType = LeafNode then
      match node.items.find? (fun it => it.key == key) with
      | some it => (.ok it.value, s)
      | none => (.error .keyNotFound, s)
    else
      match node.children.get? (node.FindChildPos key).toNat with
      | none => (.error .indexPanic, s)
      | some childID =>
        match s.GetNode childID with
        | (.error e, s1) => (.error e, s1)
        | (.ok child, s1) => searchF fuel s1 child key

/-- btree.go `Get`: key-size check, fetch the root, search. -/
def BTree.Get (s : Storage) (key : List Nat) : Except DBError (List Nat) × Storage :=
  if key.length > MaxKeySize then (.error .keyTooLarge, s)
  else
    match s.GetRootNode with
    | (.error e, s1) => (.error e, s1)
    | (.ok root, s1) => searchF defaultFuel s1 root key

/-- btree.go `setParent`: fetch the child, clone it, set the parent
pointer on the clone, persist the clone. -/
def setParentF (s : Storage) (childID parentID : Nat) : Except DBError Unit × Storage :=
  match s.GetNode childID with
  | (.error e, s1) => (.error e, s1)
  | (.ok child, s1) =>
    match s1.CloneNode child with
    | (.error e, s2) => (.error e, s2)
    | (.ok childCopy, s2) =>
      let cc := { childCopy with parent := parentID }
      (touchNode s2 cc).PutNode cc

/-- btree.go `splitLeaf`.  The Go function mutates its argument (the left
half) in place and returns only the new right sibling; the model returns
the pair `(left half, right sibling)` and mirrors the in-place mutation
into the cache. -/
def splitLeafF (s : Storage) (node : Node) : Except DBError (Node × Node) × Storage :=
  let alloc := s.nodePool.Allocate
  let s1 := { s with nodePool := alloc.2 }
  let mid := node.items.length / 2
  let newNode : Node := { NewLeafNode alloc.1 with
    items := node.items.drop mid,
    count := (node.items.drop mid).length % 2 ^ 16,
    parent := node.parent }
  let left : Node := { node with
    items := node.items.take mid,
    count := (node.items.take mid).length % 2 ^ 16 }
  let s2 := touchNode s1 left
  match s2.PutNode left with
  | (.error e, s3) => (.error e, s3)
  | (.ok _, s3) =>
    match s3.PutNode newNode with
    | (.error e, s4) => (.error e, s4)
    | (.ok _, s4) => (.ok (left, newNode), s4)

/-- Reparenting loop of btree.go `splitInternal` (also used for merges in
the source): `setParent` for each moved child. -/
def reparentAll : Storage → List Nat → Nat → Except DBError Unit × Storage
  | s, [], _ => (.ok (), s)
  | s, c :: rest, pid =>
    match setParentF s c pid with
    | (.error e, s1) => (.error e, s1)
    | (.ok _, s1) => reparentAll s1 rest pid

/-- btree.go `splitInternal`.  As with `splitLeaf`, the model returns the
pair `(left half, promoted node)`; the promoted separator is prepended to
the right sibling's items after its page write, through the cached
object, exactly as in the source. -/
def splitInternalF (s : Storage) (node : Node) : Except DBError (Node × Node) × Storage :=
  let alloc := s.nodePool.Allocate
  let s1 := { s with nodePool := alloc.2 }
  let mid := node.items.length / 2
  match node.items.get? mid with
  | none => (.error .indexPanic, s1)
  | some splitItem =>
    let newNode : Node := { NewInternalNode alloc.1 with
      items := node.items.drop (mid + 1),
      count := (node.items.drop (mid + 1)).length % 2 ^ 16,
      children := node.children.drop (mid + 1) }
    let left : Node := { node with
      items := node.items.take mid,
      count := (node.items.take mid).length % 2 ^ 16,
      children := node.children.take (mid + 1) }
    let s2 := touchNode s1 left
    match reparentAll s2 newNode.children alloc.1 with
    | (.error e, s3) => (.error e, s3)
    | (.ok _, s3) =>
      match s3.PutNode left with
      | (.error e, s4) => (.error e, s4)
      | (.ok _, s4) =>
        match s4.PutNode newNode with
        | (.error e, s5) => (.error e, s5)
        | (.ok _, s5) =>
          let promoted := { newNode with
            items := splitItem :: newNode.items,
            count := (splitItem :: newNode.items).length % 2 ^ 16 }
          (.ok (left, promoted), touchNode s5 promoted)

/-- btree.go `insert`: the returned pair is `(node, split?)` exactly as in
the source (on a split the returned node is the new right sibling /
promoted node).  In-place mutations of cache-resident nodes are mirrored
with `touchNode`. -/
def insertF : Nat → Storage → Node → List Nat → List Nat →
    Except DBError (Node × Bool) × Storage
  | 0, s, _, _, _ => (.error .outOfFuel, s)
  | fuel + 1, s, node, key, value =>
    if node.nodeType = LeafNode then
      let pos := node.FindKey key
      if 0 ≤ pos then
        let node1 := { node with
          items := node.items.set pos.toNat { itemAt node.items pos with value := value } }
        match (touchNode s node1).PutNode node1 with
        | (.error e, s1) => (.error e, s1)
        | (.ok _, s1) => (.ok (node1, false), s1)
      else
        match s.CloneNode node with
        | (.error e, s1) => (.error e, s1)
        | (.ok nodeCopy, s1) =>
          let candidate : Item := ⟨key, value⟩
          if estimateNodeSize nodeCopy (some candidate) (-1) > NodeSize
              ∨ nodeCopy.items.length + 1 > MaxItems then
            match splitLeafF s1 nodeCopy with
            | (.error e, s2) => (.error e, s2)
            | (.ok (leftCopy, newSibling), s2) =>
              match newSibling.items.get? 0 with
              | none => (.error .indexPanic, s2)
              | some first =>
                if compareBytes key first.key = .lt then
                  let lc := leftCopy.AddItem candidate
                  match (touchNode s2 lc).PutNode lc with
                  | (.error e, s3) => (.error e, s3)
                  | (.ok _, s3) => (.ok (newSibling, true), s3)
                else
                  let ns := newSibling.AddItem candidate
                  match (touchNode s2 ns).PutNode ns with
                  | (.error e, s3) => (.error e, s3)
                  | (.ok _, s3) => (.ok (ns, true), s3)
          else
            let nodeCopy1 := nodeCopy.AddItem candidate
            let s2 := touchNode s1 nodeCopy1
            if nodeCopy1.items.length > MaxItems
                ∨ estimateNodeSize nodeCopy1 none (-1) > NodeSize then
              match splitLeafF s2 nodeCopy1 with
              | (.error e, s3) => (.error e, s3)
              | (.ok (_, newSibling), s3) => (.ok (newSibling, true), s3)
            else (.ok (nodeCopy1, false), s2)
    else
      match node.children.get? (node.FindChildPos key).toNat with
      | none => (.error .indexPanic, s)
      | some childID =>
        match s.GetNode childID with
        | (.error e, s1) => (.error e, s1)
        | (.ok child, s1) =>
          match insertF fuel s1 child key value with
          | (.error e, s2) => (.error e, s2)
          | (.ok (newChild, split), s2) =>
            if !split then
              if newChild.id ≠ child.id then
                match s2.CloneNode node with
                | (.error e, s3) => (.error e, s3)
                | (.ok nodeCopy, s3) =>
                  let nodeCopy1 := { nodeCopy with
                    children := nodeCopy.children.set (node.FindChildPos key).toNat newChild.id }
                  let s4 := touchNode s3 nodeCopy1
                  match setParentF s4 newChild.id nodeCopy1.id with
                  | (.error e, s5) => (.error e, s5)
                  | (.ok _, s5) => (.ok (nodeCopy1, false), s5)
              else (.ok (node, false), s2)
            else
              match s2.CloneNode node with
              | (.error e, s3) => (.error e, s3)
              | (.ok nodeCopy, s3) =>
                match newChild.items.get? 0 with
                | none => (.error .indexPanic, s3)
                | some first =>
                  let splitKey := first.key
                  if estimateNodeSize nodeCopy (some ⟨splitKey, []⟩)
                        (((node.FindChildPos key).toNat : Int) + 1) > NodeSize
                      ∨ nodeCopy.items.length + 1 > MaxItems then
                    match splitInternalF s3 nodeCopy with
                    | (.error e, s4) => (.error e, s4)
                    | (.ok (_, promoted), s4) => (.ok (promoted, true), s4)
                  else
                    let nodeCopy1 := nodeCopy.AddItem ⟨splitKey, []⟩
                    let s4 := touchNode s3 nodeCopy1
                    match nodeCopy1.AddChild ((node.FindChildPos key).toNat + 1) newChild.id with
                    | .error e => (.error e, s4)
                    | .ok nodeCopy2 =>
                      let s5 := touchNode s4 nodeCopy2
                      match setParentF s5 newChild.id nodeCopy2.id with
                      | (.error e, s6) => (.error e, s6)
                      | (.ok _, s6) =>
                        if nodeCopy2.items.length > MaxItems
                            ∨ estimateNodeSize nodeCopy2 none (-1) > NodeSize then
                          match splitInternalF s6 nodeCopy2 with
                          | (.error e, s7) => (.error e, s7)
                          | (.ok (_, promoted), s7) => (.ok (promoted, true), s7)
                        else (.ok (nodeCopy2, false), s6)

/-- btree.go `Put`: bounds checks, begin a transaction, insert, install a
new root on a root split (or when the root was path-copied), commit.  On
an insert or setup error the transaction is aborted; an error from
`CommitTransaction` is returned without aborting, as in the source. -/
def BTree.Put (s : Storage) (key value : List Nat) (fsyncOk : Bool) :
    Except DBError Unit × Storage :=
  if key.length > MaxKeySize then (.error .keyTooLarge, s)
  else if value.length > MaxValueSize then (.error .valueTooLarge, s)
  else
    match s.BeginTransaction with
    | (.error e, s1) => (.error e, s1)
    | (.ok _, s1) =>
      match s1.GetRootNode with
      | (.error e, s2) => (.error e, s2.abortTransaction)
      | (.ok root, s2) =>
        match insertF defaultFuel s2 root key value with
        | (.error e, s3) => (.error e, s3.abortTransaction)
        | (.ok (newRoot, split), s3) =>
          if split then
            let alloc := s3.nodePool.Allocate
            let s4 := { s3 with nodePool := alloc.2 }
            match (NewInternalNode alloc.1).AddChild 0 root.id with
            | .error e => (.error e, s4.abortTransaction)
            | .ok rootNode1 =>
              match rootNode1.AddChild 1 newRoot.id with
              | .error e => (.error e, s4.abortTransaction)
              | .ok rootNode2 =>
                match newRoot.items.get? 0 with
                | none => (.error .indexPanic, s4.abortTransaction)
                | some first =>
                  let rootNode3 := rootNode2.AddItem ⟨first.key, []⟩
                  match setParentF s4 root.id rootNode3.id with
                  | (.error e, s5) => (.error e, s5.abortTransaction)
                  | (.ok _, s5) =>
                    match setParentF s5 newRoot.id rootNode3.id with
                    | (.error e, s6) => (.error e, s6.abortTransaction)
                    | (.ok _, s6) =>
                      match s6.SetRootNode rootNode3 with
                      | (.error e, s7) => (.error e, s7.abortTransaction)
                      | (.ok _, s7) => s7.CommitTransaction fsyncOk
          else
            if newRoot.id ≠ root.id then
              match s3.SetRootNode newRoot with
              | (.error e, s4) => (.error e, s4.abortTransaction)
              | (.ok _, s4) => s4.CommitTransaction fsyncOk
            else s3.CommitTransaction fsyncOk

/-- The pager state with no backing file yet. -/
def emptyStorage : Storage :=
  { events := [], diskPages := [], nodeCache := [], rootNodeID := 0,
    nodePool := NewNodePool, dirtyNodes := [], transaction := false, originalRoot := 0 }

/-- File bootstrap of the storage source (`initializeNewFile`): write a
placeholder header, allocate and write an empty root leaf, rewrite the
header with the real root id. -/
def initNewFile (s : Storage) : Except DBError Unit × Storage :=
  match s.writeHeader with
  | (.error e, s1) => (.error e, s1)
  | (.ok _, s1) =>
    let alloc := s1.nodePool.Allocate
    let rootNode := NewLeafNode alloc.1
    let s2 := { s1 with nodePool := alloc.2, rootNodeID := alloc.1,
                        nodeCache := (alloc.1, rootNode) :: s1.nodeCache }
    match s2.writeNode rootNode with
    | (.error e, s3) => (.error e, s3)
    | (.ok _, s3) => s3.writeHeader

/-- The storage state right after opening a fresh (empty) database file. -/
def openedStorage : Storage := (initNewFile emptyStorage).2

/-- Run a sequence of `Put` operations (fsync succeeding), stopping at the
first error. -/
def runPuts : Storage → List (List Nat × List Nat) → Except DBError Unit × Storage
  | s, [] => (.ok (), s)
  | s, (k, v) :: rest =>
    match BTree.Put s k v true with
    | (.error e, s1) => (.error e, s1)
    | (.ok _, s1) => runPuts s1 rest

/-- A value of 1017 bytes (within `MaxValueSize = 1024`), used by the
concrete split scenarios: one item with a 1-byte key and this value
occupies `2 + 1 + 4 + 1017 = 1024` estimator bytes. -/
def bigValue : List Nat := List.replicate 1017 120

/-- A value of 999 bytes: an item with a 1-byte key and this value
occupies `2 + 1 + 4 + 999 = 1006` estimator bytes. -/
def midValue : List Nat := List.replicate 999 119

/-- Three Puts of 1-byte keys `"b"`, `"c"`, `"d"` with 1017-byte values;
they fill the root leaf to estimator size `16 + 3 · 1024 = 3088`. -/
def threeBigPuts : List (List Nat × List Nat) :=
  [([98], bigValue), ([99], bigValue), ([100], bigValue)]

/-- State after the three big Puts on a fresh database: the root is the
leaf with id 4 holding keys `[98]`, `[99]`, `[100]`. -/
def s3base : Storage := (runPuts openedStorage threeBigPuts).2

/-- Fourth Put of key `"a"` and another 1017-byte value: the pre-split
estimate `16 + 4 · 1024 = 4112` exceeds `NodeSize`, so the leaf splits
and the new key goes into the left half. -/
def splitPut : Except DBError Unit × Storage := BTree.Put s3base [97] bigValue true

/-- Fourth Put of key `"a"` with a 999-byte value: the estimate
`16 + 3 · 1024 + 1006 = 4094` passes, but the true serialised size is
`19 + 4078 = 4097 > NodeSize`, so commit-time serialisation fails. -/
def failedPut : Except DBError Unit × Storage := BTree.Put s3base [97] midValue true

/-- State after `Put([107], [49])` on a fresh database: the root is the
leaf with id 2 and the next id to allocate is 3. -/
def overwriteBase : Storage := (runPuts openedStorage [([107], [49])]).2

/-- A second Put of the same key `[107]` with a new value `[50]`. -/
def overwritePut : Except DBError Unit × Storage := BTree.Put overwriteBase [107] [50] true

/-- The full serialised page of a node (the `ok` result of `Serialize`). -/
def pageOf (n : Node) : List Nat :=
  serializeContent n ++ List.replicate (NodeSize - contentSize n) 0



/-- The cached node at `id` (meaningful when the cache holds `id`). -/
def cachedNode (s : Storage) (id : Nat) : Node := (cacheGet s.nodeCache id).getD default

/-- The write event the commit loop emits for one dirty id. -/
def dirtyWriteEvent (s : Storage) (id : Nat) : IOEvent :=
  .writeAt (nodeOffset (cachedNode s id).id) (pageOf (cachedNode s id))


/-- The node used to probe the serialised layout for C8: a leaf whose
parent id 258 makes the parent field's position observable. -/
def layoutProbeNode : Node :=
  { id := 1, nodeType := LeafNode, count := 1, parent := 258,
    items := [⟨[65], [66]⟩], children := [] }

/-- The serialised page of `layoutProbeNode`. -/
def layoutProbePage : List Nat := pageOf layoutProbeNode

/-- A concrete internal node exercising the C10 round trip. -/
def roundtripProbeNode : Node :=
  { id := 2, nodeType := InternalNode, count := 1, parent := 1,
    items := [⟨[10], []⟩], children := [3, 4] }

/-- A concrete storage with an open transaction and one cached dirty
node, used as the C2 witness input. -/
def commitWitnessStorage : Storage :=
  { emptyStorage with
      transaction := true
      nodeCache := [(1, NewLeafNode 1)]
      dirtyNodes := [1] }

/-- A concrete storage with an open transaction, used as the C4 witness input. -/
def c4WitnessStorage : Storage := { emptyStorage with transaction := true }

/-- A concrete one-item leaf, used as the C4 witness input. -/
def c4WitnessNode : Node :=
  { id := 42, nodeType := LeafNode, count := 1, parent := 0,
    items := [⟨[5], [6]⟩], children := [] }

/-- A concrete storage with an open transaction, used as the C6 witness input. -/
def c6WitnessStorage : Storage := { emptyStorage with transaction := true }

/-- A concrete four-item leaf, used as the C6 witness input. -/
def c6WitnessNode : Node :=
  { id := 42, nodeType := LeafNode, count := 4, parent := 0,
    items := [⟨[1], [9]⟩, ⟨[2], [9]⟩, ⟨[3], [9]⟩, ⟨[4], [9]⟩], children := [] }

/-- Little-endian encoding of a `w`-byte integer has `w` bytes. -/
theorem bytesLE_length (w x : Nat) : (bytesLE w x).length = w := by
  induction w generalizing x with
  | zero => rfl
  | succ w ih => simp [bytesLE, ih]

/-- Length of one serialised item record. -/
theorem itemBytes_length (it : Item) : (itemBytes it).length = itemWireSize it := by
  simp [itemBytes, itemWireSize, bytesLE_length]
  omega

/-- The arithmetic pre-padding size agrees with the length of the byte
sequence `Serialize` accumulates. -/
theorem contentSize_eq_length (n : Node) : contentSize n = (serializeContent n).length := by
  have hitem : ∀ its : List Item,
      ((its.map itemBytes).flatten).length = (its.map itemWireSize).sum := by
    intro its
    induction its with
    | nil => rfl
    | cons a l ih =>
      simp only [List.map_cons, List.flatten_cons, List.length_append, ih, List.sum_cons,
        itemBytes_length]
  have hchild : ∀ ids : List Nat, ((ids.map (bytesLE 8)).flatten).length = 8 * ids.length := by
    intro ids
    induction ids with
    | nil => rfl
    | cons a l ih =>
      simp only [List.map_cons, List.flatten_cons, List.length_append, ih, List.length_cons,
        bytesLE_length]
      omega
  simp only [contentSize, serializeContent, childrenBytes, List.length_append, hitem,
    bytesLE_length, List.length_cons, List.length_singleton]
  by_cases h : n.nodeType = InternalNode
  · simp [h, hchild]
  · simp [h]

theorem pow256_2 : (256 : Nat) ^ 2 = 2 ^ 16 := by norm_num
theorem pow256_4 : (256 : Nat) ^ 4 = 2 ^ 32 := by norm_num
theorem pow256_8 : (256 : Nat) ^ 8 = 2 ^ 64 := by norm_num

theorem readLE_bytesLE (w x : Nat) (r : List Nat) :
    readLE w (bytesLE w x ++ r) = some (x % 256 ^ w, r) := by
  induction w generalizing x with
  | zero => simp [readLE, bytesLE, Nat.mod_one]
  | succ w ih =>
    have h : x % 256 ^ (w + 1) = x % 256 + 256 * (x / 256 % 256 ^ w) := by
      rw [pow_succ, Nat.mul_comm, Nat.mod_mul]
    simp only [bytesLE, List.cons_append, readLE, List.append_eq, ih, h]

theorem readExact_append (l r : List Nat) : readExact l.length (l ++ r) = some (l, r) := by
  simp [readExact, List.take_left, List.drop_left]

theorem readLE_one (b : Nat) (rest : List Nat) : readLE 1 (b :: rest) = some (b, rest) := by
  simp [readLE]

theorem parseItems_roundtrip (its : List Item) (r : List Nat)
    (h : ∀ it ∈ its, it.key.length < 2 ^ 16 ∧ it.value.length < 2 ^ 32) :
    parseItems its.length ((its.map itemBytes).flatten ++ r) = some (its, r) := by
  induction its with
  | nil => simp [parseItems]
  | cons a l ih =>
    have ha := h a (by simp)
    have ek : a.key.length % 256 ^ 2 = a.key.length := by
      rw [pow256_2]; exact Nat.mod_eq_of_lt ha.1
    have ev : a.value.length % 256 ^ 4 = a.value.length := by
      rw [pow256_4]; exact Nat.mod_eq_of_lt ha.2
    simp only [List.map_cons, List.flatten_cons, List.length_cons, List.append_assoc,
      itemBytes, parseItems, List.append_eq, readLE_bytesLE, ek, ev, readExact_append,
      ih (fun it hit => h it (by simp [hit]))]

theorem parseIds_roundtrip (ids : List Nat) (r : List Nat)
    (h : ∀ i ∈ ids, i < 2 ^ 64) :
    parseIds ids.length ((ids.map (bytesLE 8)).flatten ++ r) = some (ids, r) := by
  induction ids with
  | nil => simp [parseIds]
  | cons a l ih =>
    have ha : a % 256 ^ 8 = a := by
      rw [pow256_8]; exact Nat.mod_eq_of_lt (h a (by simp))
    simp only [List.map_cons, List.flatten_cons, List.length_cons, List.append_assoc, parseIds,
      List.append_eq, readLE_bytesLE, ha, ih (fun i hi => h i (by simp [hi]))]

theorem itemWireSize_ge (it : Item) : 6 ≤ itemWireSize it := by
  unfold itemWireSize
  omega

theorem six_mul_length_le_sum (l : List Item) : 6 * l.length ≤ (l.map itemWireSize).sum := by
  induction l with
  | nil => simp
  | cons a l ih =>
    have := itemWireSize_ge a
    simp only [List.map_cons, List.sum_cons, List.length_cons]
    omega

theorem items_length_bound (n : Node) (hsz : contentSize n ≤ NodeSize) :
    n.items.length < 2 ^ 16 := by
  have h6 := six_mul_length_le_sum n.items
  simp only [contentSize, NodeSize] at hsz
  omega

theorem item_bounds (n : Node) (hsz : contentSize n ≤ NodeSize) :
    ∀ it ∈ n.items, it.key.length < 2 ^ 16 ∧ it.value.length < 2 ^ 32 := by
  intro it hit
  have hle : itemWireSize it ≤ (n.items.map itemWireSize).sum :=
    List.single_le_sum (by intro x _; exact Nat.zero_le x) _ (List.mem_map_of_mem _ hit)
  simp only [contentSize, NodeSize] at hsz
  simp only [itemWireSize] at hle
  constructor <;> omega

theorem pageOf_length (n : Node) (hsz : contentSize n ≤ NodeSize) :
    (pageOf n).length = NodeSize := by
  simp [pageOf, ← contentSize_eq_length]
  omega

/-- C10: for every node whose count field equals its item-vector length,
whose children vector has length count + 1 when internal (and is empty
when leaf, as Go constructs leaves), whose pre-padding serialised size
is at most PAGE_SIZE, and whose ids and parent fit in a u64 (as Go's
types guarantee), DeserializeNode applied to the output of Serialize
reconstructs the node exactly: same id, kind, count, parent, item keys
and values, and children. -/
theorem c10_roundtrip (n : Node)
    (hcnt : n.count = n.items.length)
    (hkind : n.nodeType = LeafNode ∨ n.nodeType = InternalNode)
    (hleafch : n.nodeType = LeafNode → n.children = [])
    (hintch : n.nodeType = InternalNode → n.children.length = n.count + 1)
    (hsz : contentSize n ≤ NodeSize)
    (hid : n.id < 2 ^ 64) (hpar : n.parent < 2 ^ 64)
    (hch : ∀ c ∈ n.children, c < 2 ^ 64) :
    n.Serialize = .ok (pageOf n) ∧ DeserializeNode (pageOf n) = some n := by
  have hser : n.Serialize = .ok (pageOf n) := by
    simp [Node.Serialize, pageOf, Nat.not_lt.mpr hsz]
  refine ⟨hser, ?_⟩
  have hlen := pageOf_length n hsz
  have hcnt16 : n.items.length < 2 ^ 16 := items_length_bound n hsz
  have hkb : n.nodeType % 256 = n.nodeType := by
    rcases hkind with h | h <;> simp [h, LeafNode, InternalNode]
  have eid : n.id % 256 ^ 8 = n.id := by rw [pow256_8]; exact Nat.mod_eq_of_lt hid
  have epar : n.parent % 256 ^ 8 = n.parent := by rw [pow256_8]; exact Nat.mod_eq_of_lt hpar
  have ecnt : n.count % 256 ^ 2 = n.count := by
    rw [pow256_2]; exact Nat.mod_eq_of_lt (by omega)
  have hpage : pageOf n = bytesLE 8 n.id ++ ([n.nodeType % 256]
      ++ (bytesLE 2 n.count ++ (bytesLE 8 n.parent
      ++ ((n.items.map itemBytes).flatten ++ (childrenBytes n
      ++ List.replicate (NodeSize - contentSize n) 0))))) := by
    simp [pageOf, serializeContent, List.append_assoc]
  have hpi : parseItems n.count ((n.items.map itemBytes).flatten ++ (childrenBytes n
      ++ List.replicate (NodeSize - contentSize n) 0)) =
      some (n.items, childrenBytes n ++ List.replicate (NodeSize - contentSize n) 0) := by
    rw [hcnt]
    exact parseItems_roundtrip n.items _ (item_bounds n hsz)
  rw [DeserializeNode, if_neg (by simp [hlen])]
  rcases hkind with hk | hk
  · have hne : (n.nodeType = InternalNode) = False := by simp [hk, LeafNode, InternalNode]
    simp only [hpage, List.singleton_append, readLE_bytesLE, readLE_one, eid, ecnt, epar, hkb,
      hpi, hne, if_false]
    rw [← hleafch hk]
  · have hit : (n.nodeType = InternalNode) = True := by simp [hk]
    have hcb : childrenBytes n = (n.children.map (bytesLE 8)).flatten := by
      simp [childrenBytes, hk]
    have hpids : parseIds (n.count + 1) ((n.children.map (bytesLE 8)).flatten
        ++ List.replicate (NodeSize - contentSize n) 0) =
        some (n.children, List.replicate (NodeSize - contentSize n) 0) := by
      rw [← hintch hk]
      exact parseIds_roundtrip n.children _ hch
    have hpi2 : parseItems n.count ((n.items.map itemBytes).flatten
        ++ ((n.children.map (bytesLE 8)).flatten
            ++ List.replicate (NodeSize - contentSize n) 0)) =
        some (n.items, (n.children.map (bytesLE 8)).flatten
            ++ List.replicate (NodeSize - contentSize n) 0) := by
      rw [← hcb]
      exact hpi
    simp only [hpage, List.singleton_append, readLE_bytesLE, readLE_one, eid, ecnt, epar, hkb,
      hcb, hpi2, hpids, hit, if_true]


theorem cacheGet_cons_self (c : List (Nat × Node)) (id : Nat) (nd : Node) :
    cacheGet ((id, nd) :: c) id = some nd := by
  simp [cacheGet, List.find?]

theorem cacheGet_cons_ne (c : List (Nat × Node)) (id id' : Nat) (nd : Node) (h : id' ≠ id) :
    cacheGet ((id', nd) :: c) id = cacheGet c id := by
  have hb : (id' == id) = false := by simp [h]
  simp [cacheGet, List.find?, hb]

theorem addItemList_length (it : Item) (l : List Item) :
    (addItemList it l).length = l.length + 1 := by
  induction l with
  | nil => rfl
  | cons a l ih =>
    by_cases h : compareBytes a.key it.key = .lt <;> simp [addItemList, h, ih]

theorem addItemList_map_sum (it : Item) (l : List Item) :
    ((addItemList it l).map itemSize).sum = itemSize it + (l.map itemSize).sum := by
  induction l with
  | nil => simp [addItemList]
  | cons a l ih =>
    by_cases h : compareBytes a.key it.key = .lt
    · simp [addItemList, h, ih]
      omega
    · simp [addItemList, h]

theorem flatten_bytesLE8_length (l : List Nat) :
    ((l.map (bytesLE 8)).flatten).length = 8 * l.length := by
  induction l with
  | nil => rfl
  | cons a l ih =>
    simp only [List.map_cons, List.flatten_cons, List.length_append, ih, List.length_cons,
      bytesLE_length]
    omega

theorem headerContent_length (s : Storage) :
    (headerContent s).length
      = 28 + 8 * min maxFreeInHeader s.nodePool.freeNodeIDs.length := by
  simp only [headerContent, List.length_append, bytesLE_length, flatten_bytesLE8_length,
    List.length_take]

theorem headerContent_le (s : Storage) : (headerContent s).length ≤ HeaderSize := by
  rw [headerContent_length]
  have h1 : min maxFreeInHeader s.nodePool.freeNodeIDs.length ≤ maxFreeInHeader :=
    Nat.min_le_left _ _
  have hm : maxFreeInHeader = 508 := by rfl
  simp only [HeaderSize, NodeSize]
  omega

theorem headerPage_length (s : Storage) : (headerPage s).length = HeaderSize := by
  have := headerContent_le s
  simp [headerPage]
  omega

theorem writeHeader_ok (s : Storage) :
    s.writeHeader = (.ok (), { s with
      events := s.events ++ [.writeAt 0 (headerPage s)],
      diskPages := (0, headerPage s) :: s.diskPages }) := by
  rw [Storage.writeHeader, if_neg (by have := headerContent_le s; omega)]

theorem writeNode_ok (s : Storage) (n : Node) (h : contentSize n ≤ NodeSize) :
    s.writeNode n = (.ok (), { s with
      events := s.events ++ [.writeAt (nodeOffset n.id) (pageOf n)],
      diskPages := (nodeOffset n.id, pageOf n) :: s.diskPages }) := by
  rw [Storage.writeNode]
  rw [show n.Serialize = .ok (pageOf n) from by
    simp [Node.Serialize, pageOf, Nat.not_lt.mpr h]]

theorem writeDirty_spec (ids : List Nat) (s : Storage)
    (hd : ∀ id ∈ ids, (cacheGet s.nodeCache id).isSome = true ∧
            contentSize (cachedNode s id) ≤ NodeSize) :
    ∃ s1, writeDirty s ids = (.ok (), s1) ∧
      s1.nodeCache = s.nodeCache ∧ s1.rootNodeID = s.rootNodeID ∧
      s1.nodePool = s.nodePool ∧ s1.dirtyNodes = s.dirtyNodes ∧
      s1.transaction = s.transaction ∧ s1.originalRoot = s.originalRoot ∧
      s1.events = s.events ++ ids.map (dirtyWriteEvent s) := by
  induction ids generalizing s with
  | nil => exact ⟨s, rfl, rfl, rfl, rfl, rfl, rfl, rfl, by simp⟩
  | cons id rest ih =>
    have h0 := hd id (by simp)
    cases hc : cacheGet s.nodeCache id with
    | none => rw [hc] at h0; simp at h0
    | some n =>
      have hn : cachedNode s id = n := by simp [cachedNode, hc]
      have hsz : contentSize n ≤ NodeSize := hn ▸ h0.2
      obtain ⟨s2, he, hcache, hroot, hpool, hdirty, htx, horig, hevents⟩ :=
        ih { s with events := s.events ++ [IOEvent.writeAt (nodeOffset n.id) (pageOf n)],
                    diskPages := (nodeOffset n.id, pageOf n) :: s.diskPages }
          (by intro i hi
              simpa [cachedNode] using hd i (by simp [hi]))
      refine ⟨s2, ?_, by simpa using hcache, by simpa using hroot, by simpa using hpool,
        by simpa using hdirty, by simpa using htx, by simpa using horig, ?_⟩
      · simp only [writeDirty, hc, writeNode_ok s n hsz]
        exact he
      · rw [hevents]
        have hdw : dirtyWriteEvent { s with
            events := s.events ++ [IOEvent.writeAt (nodeOffset n.id) (pageOf n)],
            diskPages := (nodeOffset n.id, pageOf n) :: s.diskPages } = dirtyWriteEvent s := by
          funext i
          simp [dirtyWriteEvent, cachedNode]
        simp only [hdw, List.map_cons, dirtyWriteEvent, hn, List.append_assoc,
          List.singleton_append]

/-- C2: CommitTransaction, called with a transaction in progress (and
every dirty id cached with a serialisable node), first writes every node
in the dirty set to its page, then writes the header as a single write
of exactly HEADER_SIZE bytes at offset 0 (magic, version, root id, next
id, bounded free list, zero padding), then fsyncs; only after the fsync
succeeds does it clear the transaction flag and the dirty set — a failed
fsync leaves the transaction open with the dirty set intact. -/
theorem c2_commit_protocol (s : Storage) (htx : s.transaction = true)
    (hd : ∀ id ∈ s.dirtyNodes, (cacheGet s.nodeCache id).isSome = true ∧
            contentSize (cachedNode s id) ≤ NodeSize) :
    (∃ s1, s.CommitTransaction true = (.ok (), s1) ∧
       s1.transaction = false ∧ s1.dirtyNodes = [] ∧
       s1.rootNodeID = s.rootNodeID ∧
       s1.events = s.events ++ s.dirtyNodes.map (dirtyWriteEvent s)
         ++ [IOEvent.writeAt 0 (headerPage s), IOEvent.fsync]) ∧
    (headerPage s).length = HeaderSize ∧
    headerPage s = bytesLE 4 MagicNumber ++ bytesLE 4 FormatVersion
      ++ bytesLE 8 s.rootNodeID ++ bytesLE 8 s.nodePool.nextNodeID
      ++ bytesLE 4 (min s.nodePool.freeNodeIDs.length maxFreeInHeader)
      ++ ((s.nodePool.freeNodeIDs.take maxFreeInHeader).map (bytesLE 8)).flatten
      ++ List.replicate (HeaderSize - (headerContent s).length) 0 ∧
    (∃ s2, s.CommitTransaction false = (.error .syncFailed, s2) ∧
       s2.transaction = true ∧ s2.dirtyNodes = s.dirtyNodes) := by
  obtain ⟨s1, hwd, hcache, hroot, hpool, hdirty, htxp, horig, hevents⟩ :=
    writeDirty_spec s.dirtyNodes s hd
  have hh1 : headerPage s1 = headerPage s := by
    simp [headerPage, headerContent, hroot, hpool]
  have hcommit : s.CommitTransaction true = (.ok (), { s1 with
      events := (s1.events ++ [IOEvent.writeAt 0 (headerPage s1)]) ++ [IOEvent.fsync],
      diskPages := (0, headerPage s1) :: s1.diskPages,
      transaction := false, dirtyNodes := [] }) := by
    rw [Storage.CommitTransaction, htx]
    simp only [Bool.not_true, Bool.false_eq_true, if_false, hwd, writeHeader_ok s1, if_true]
  have hcommitF : s.CommitTransaction false = (.error .syncFailed, { s1 with
      events := s1.events ++ [IOEvent.writeAt 0 (headerPage s1)],
      diskPages := (0, headerPage s1) :: s1.diskPages }) := by
    rw [Storage.CommitTransaction, htx]
    simp only [Bool.not_true, Bool.false_eq_true, if_false, hwd, writeHeader_ok s1]
  refine ⟨⟨_, hcommit, rfl, rfl, by simpa using hroot, ?_⟩, headerPage_length s, ?_,
    ⟨_, hcommitF, by simpa [htx] using htxp, by simpa using hdirty⟩⟩
  · dsimp only
    rw [hevents, hh1]
    simp [List.append_assoc]
  · simp [headerPage, headerContent, NodePool.Stats, List.append_assoc]

theorem getLastD_mem (l : List Nat) (d : Nat) (h : l ≠ []) : l.getLastD d ∈ l := by
  rw [List.getLastD_eq_getLast?, List.getLast?_eq_getLast l h]
  simp [List.getLast_mem]

theorem poolStep_inv (q : NodePool) (op : PoolOp)
    (h0 : 0 ∉ q.freeNodeIDs) (h1 : 1 ≤ q.nextNodeID) (h2 : q.nextNodeID + 1 < 2 ^ 64) :
    0 ∉ (poolStep q op).freeNodeIDs ∧ 1 ≤ (poolStep q op).nextNodeID ∧
      (poolStep q op).nextNodeID ≤ q.nextNodeID + 1 := by
  cases op with
  | alloc =>
    simp only [poolStep, NodePool.Allocate]
    by_cases he : q.freeNodeIDs.isEmpty
    · rw [if_pos he]
      refine ⟨h0, ?_, ?_⟩
      · simp only [Nat.mod_eq_of_lt h2]
        omega
      · simp only [Nat.mod_eq_of_lt h2]
        omega
    · rw [if_neg he]
      refine ⟨fun hm => h0 (List.Sublist.mem hm (List.dropLast_sublist _)), h1, ?_⟩
      dsimp only
      omega
  | free id =>
    simp only [poolStep, NodePool.Free]
    by_cases hz : id = 0
    · rw [if_pos hz]
      exact ⟨h0, h1, by omega⟩
    · rw [if_neg hz]
      refine ⟨?_, h1, by dsimp only; omega⟩
      intro hm
      rcases List.mem_append.mp hm with hm | hm
      · exact h0 hm
      · simp at hm
        exact hz hm.symm

theorem runPool_inv (ops : List PoolOp) (q : NodePool)
    (h0 : 0 ∉ q.freeNodeIDs) (h1 : 1 ≤ q.nextNodeID)
    (h2 : q.nextNodeID + ops.length < 2 ^ 64) :
    0 ∉ (ops.foldl poolStep q).freeNodeIDs ∧ 1 ≤ (ops.foldl poolStep q).nextNodeID := by
  induction ops generalizing q with
  | nil => exact ⟨h0, h1⟩
  | cons op rest ih =>
    simp only [List.foldl_cons]
    have hlen : q.nextNodeID + 1 < 2 ^ 64 := by
      simp only [List.length_cons] at h2
      omega
    have hstep := poolStep_inv q op h0 h1 hlen
    refine ih (poolStep q op) hstep.1 hstep.2.1 ?_
    have h3 := hstep.2.2
    simp only [List.length_cons] at h2
    omega

/-- C9: for every allocator state, Allocate pops and returns the last
entry of the free list when it is non-empty and otherwise returns
next_id and increments it (a u64 increment); Free 0 is a no-op while
Free id appends id for id ≠ 0; and Allocate never returns PageId 0 on
any state the program can reach from a fresh pool by fewer than
2^64 − 1 allocator calls. -/
theorem c9_allocator (p : NodePool) (id : Nat) (ops : List PoolOp)
    (hid : id ≠ 0) (hops : ops.length + 1 < 2 ^ 64) :
    (p.freeNodeIDs ≠ [] →
      (p.Allocate).1 = p.freeNodeIDs.getLastD 0 ∧
      (p.Allocate).2 = { p with freeNodeIDs := p.freeNodeIDs.dropLast }) ∧
    (p.freeNodeIDs = [] →
      (p.Allocate).1 = p.nextNodeID ∧
      (p.Allocate).2 = { p with nextNodeID := (p.nextNodeID + 1) % 2 ^ 64 }) ∧
    p.Free 0 = p ∧
    p.Free id = { p with freeNodeIDs := p.freeNodeIDs ++ [id] } ∧
    ((runPool ops).Allocate).1 ≠ 0 := by
  have hinv := runPool_inv ops NewNodePool (by simp [NewNodePool]) (by simp [NewNodePool])
    (by simp only [NewNodePool, List.length_nil]; omega)
  have hrp : runPool ops = ops.foldl poolStep NewNodePool := rfl
  refine ⟨?_, ?_, ?_, ?_, ?_⟩
  · intro h
    have he : p.freeNodeIDs.isEmpty = false := by simp [h]
    constructor <;> simp [NodePool.Allocate, he]
  · intro h
    constructor <;> simp [NodePool.Allocate, h]
  · simp [NodePool.Free]
  · simp [NodePool.Free, hid]
  · by_cases he : (runPool ops).freeNodeIDs.isEmpty
    · have h1 : ((runPool ops).Allocate).1 = (runPool ops).nextNodeID := by
        simp [NodePool.Allocate, he]
      rw [h1]
      have h2 := hinv.2
      rw [← hrp] at h2
      omega
    · have h1 : ((runPool ops).Allocate).1 = (runPool ops).freeNodeIDs.getLastD 0 := by
        simp [NodePool.Allocate, he]
      have hne : (runPool ops).freeNodeIDs ≠ [] := by
        simpa [List.isEmpty_iff] using he
      have hmem := getLastD_mem (runPool ops).freeNodeIDs 0 hne
      intro hz
      rw [hz] at h1
      rw [← h1] at hmem
      have h0 := hinv.1
      rw [← hrp] at h0
      exact h0 hmem

theorem take_append_length {α : Type} (l1 l2 : List α) (k : Nat) (h : l1.length = k) :
    (l1 ++ l2).take k = l1 := by
  subst h
  exact List.take_left l1 l2

theorem drop_append_length {α : Type} (l1 l2 : List α) (k : Nat) (h : l1.length = k) :
    (l1 ++ l2).drop k = l2 := by
  subst h
  exact List.drop_left l1 l2

/-- C8 amended: a successfully serialised node page is exactly
PAGE_SIZE = 4096 bytes, little-endian, zero-padded after the records,
with id (u64) at offset 0, kind (u8) at offset 8 and count (u16) at
offset 9 as the claim states — but with no reserved slack: the parent
field (u64) sits at offset 11 and the item records start at offset 19,
not 16 and 24 (the serialiser writes the header fields back to back). -/
theorem c8_layout (n : Node) (p : List Nat) (h : n.Serialize = .ok p) :
    p.length = NodeSize ∧
    p.take 8 = bytesLE 8 n.id ∧
    (p.drop 8).take 1 = [n.nodeType % 256] ∧
    (p.drop 9).take 2 = bytesLE 2 n.count ∧
    (p.drop 11).take 8 = bytesLE 8 n.parent ∧
    p.drop 19 = (n.items.map itemBytes).flatten ++ childrenBytes n
      ++ List.replicate (NodeSize - contentSize n) 0 ∧
    p.drop (contentSize n) = List.replicate (NodeSize - contentSize n) 0 := by
  have hsz : contentSize n ≤ NodeSize := by
    by_contra hgt
    simp [Node.Serialize, Nat.lt_of_not_le hgt] at h
  have hp : p = serializeContent n ++ List.replicate (NodeSize - contentSize n) 0 := by
    rw [Node.Serialize, if_neg (by omega)] at h
    exact (Except.ok.injEq _ _).mp h.symm
  subst hp
  have hlen : (serializeContent n ++ List.replicate (NodeSize - contentSize n) 0).length
      = NodeSize := by
    simp [← contentSize_eq_length]
    omega
  have hgrp19 : serializeContent n ++ List.replicate (NodeSize - contentSize n) 0
      = (bytesLE 8 n.id ++ [n.nodeType % 256] ++ bytesLE 2 n.count ++ bytesLE 8 n.parent)
        ++ ((n.items.map itemBytes).flatten ++ childrenBytes n
            ++ List.replicate (NodeSize - contentSize n) 0) := by
    simp [serializeContent, List.append_assoc]
  refine ⟨hlen, ?_, ?_, ?_, ?_, ?_, ?_⟩
  · have hgrp : serializeContent n ++ List.replicate (NodeSize - contentSize n) 0
        = bytesLE 8 n.id ++ ([n.nodeType % 256] ++ bytesLE 2 n.count ++ bytesLE 8 n.parent
          ++ ((n.items.map itemBytes).flatten ++ childrenBytes n
              ++ List.replicate (NodeSize - contentSize n) 0)) := by
      simp [serializeContent, List.append_assoc]
    rw [hgrp, take_append_length _ _ 8 (bytesLE_length 8 n.id)]
  · have hgrp : serializeContent n ++ List.replicate (NodeSize - contentSize n) 0
        = bytesLE 8 n.id ++ ([n.nodeType % 256] ++ (bytesLE 2 n.count ++ bytesLE 8 n.parent
          ++ ((n.items.map itemBytes).flatten ++ childrenBytes n
              ++ List.replicate (NodeSize - contentSize n) 0))) := by
      simp [serializeContent, List.append_assoc]
    rw [hgrp, drop_append_length _ _ 8 (bytesLE_length 8 n.id),
      take_append_length [n.nodeType % 256] _ 1 (by simp)]
  · have hgrp : serializeContent n ++ List.replicate (NodeSize - contentSize n) 0
        = (bytesLE 8 n.id ++ [n.nodeType % 256]) ++ (bytesLE 2 n.count
          ++ (bytesLE 8 n.parent ++ ((n.items.map itemBytes).flatten ++ childrenBytes n
              ++ List.replicate (NodeSize - contentSize n) 0))) := by
      simp [serializeContent, List.append_assoc]
    rw [hgrp, drop_append_length _ _ 9 (by simp [bytesLE_length]),
      take_append_length _ _ 2 (bytesLE_length 2 n.count)]
  · have hgrp : serializeContent n ++ List.replicate (NodeSize - contentSize n) 0
        = (bytesLE 8 n.id ++ [n.nodeType % 256] ++ bytesLE 2 n.count) ++ (bytesLE 8 n.parent
          ++ ((n.items.map itemBytes).flatten ++ childrenBytes n
              ++ List.replicate (NodeSize - contentSize n) 0)) := by
      simp [serializeContent, List.append_assoc]
    rw [hgrp, drop_append_length _ _ 11 (by simp [bytesLE_length]),
      take_append_length _ _ 8 (bytesLE_length 8 n.parent)]
  · rw [hgrp19, drop_append_length _ _ 19 (by simp [bytesLE_length]), List.append_assoc]
  · have hgrp : serializeContent n ++ List.replicate (NodeSize - contentSize n) 0
        = serializeContent n ++ List.replicate (NodeSize - contentSize n) 0 := rfl
    rw [drop_append_length _ _ (contentSize n) (contentSize_eq_length n).symm]

/-- C4 amended: within a transaction, a leaf-level insert of a key not
yet present first clones the leaf to a freshly allocated PageId and adds
the item on the clone, leaving the original cache entry untouched; but
when Put finds the key already present in the leaf, the value is
overwritten in place on the original node object (same PageId, no
allocation), contrary to the claim's "never on the original". -/
theorem c4_clone_discipline (fuel : Nat) (s : Storage) (n : Node) (key value : List Nat)
    (htx : s.transaction = true) (hleaf : n.nodeType = LeafNode)
    (hfresh : (s.nodePool.Allocate).1 ≠ n.id) :
    (0 ≤ n.FindKey key →
      ∃ n1 s1, insertF (fuel + 1) s n key value = (.ok (n1, false), s1) ∧
        n1.id = n.id ∧
        n1.items = n.items.set (n.FindKey key).toNat
          { itemAt n.items (n.FindKey key) with value := value } ∧
        s1.nodePool = s.nodePool ∧
        cacheGet s1.nodeCache n.id = some n1) ∧
    (n.FindKey key < 0 →
      estimateNodeSize n (some ⟨key, value⟩) (-1) ≤ NodeSize →
      n.items.length + 1 ≤ MaxItems →
      ∃ n2 s2, insertF (fuel + 1) s n key value = (.ok (n2, false), s2) ∧
        n2.id = (s.nodePool.Allocate).1 ∧ n2.id ≠ n.id ∧
        n2.items = addItemList ⟨key, value⟩ n.items ∧
        cacheGet s2.nodeCache n.id = cacheGet s.nodeCache n.id ∧
        cacheGet s2.nodeCache n2.id = some n2) := by
  constructor
  · intro hpos
    simp only [insertF, if_pos hleaf, if_pos hpos, touchNode, Storage.PutNode, htx, if_true]
    exact ⟨_, _, rfl, rfl, rfl, rfl, cacheGet_cons_self _ _ _⟩
  · intro hneg hest hcap
    have hnpos : ¬ (0 ≤ n.FindKey key) := by omega
    have hclone : ¬ (LeafNode = InternalNode) := by decide
    simp only [insertF, if_pos hleaf, if_neg hnpos, Storage.CloneNode, htx, if_true]
    rw [if_neg (by
      push_neg
      constructor
      · simp only [estimateNodeSize, hleaf, hclone, if_false]
        simp only [estimateNodeSize, hleaf, hclone, if_false] at hest
        omega
      · simpa [MaxItems] using hcap)]
    rw [if_neg (by
      push_neg
      constructor
      · simp only [Node.AddItem, addItemList_length]
        simpa [MaxItems] using hcap
      · simp only [Node.AddItem, estimateNodeSize, addItemList_map_sum, hleaf, hclone, if_false]
        simp only [estimateNodeSize, hleaf, hclone, if_false] at hest
        simp only [itemSize] at hest ⊢
        omega)]
    refine ⟨_, _, rfl, rfl, hfresh, rfl, ?_, ?_⟩
    · simp only [Node.AddItem, touchNode]
      rw [cacheGet_cons_ne _ _ _ _ hfresh, cacheGet_cons_ne _ _ _ _ hfresh]
    · simp only [Node.AddItem, touchNode]
      exact cacheGet_cons_self _ _ _

/-- C6 amended: splitLeaf gives the left half the low ⌊n/2⌋ items and
the right sibling the remaining ⌈n/2⌉ of the n pre-split items; the
halves reach MIN_ITEMS = 127 only when n ≥ 254 (true for splits
triggered by the MAX_ITEMS cap), while splits triggered by the
page-size estimate can and do produce non-root nodes with fewer than
MIN_ITEMS items, contrary to the claim. -/
theorem c6_split_halves (s : Storage) (node : Node)
    (htx : s.transaction = true) (hlen : node.items.length < 2 ^ 16)
    (hfresh : (s.nodePool.Allocate).1 ≠ node.id) :
    ∃ s1 left sib,
      splitLeafF s node = (.ok (left, sib), s1) ∧
      left.id = node.id ∧ sib.id = (s.nodePool.Allocate).1 ∧
      left.items = node.items.take (node.items.length / 2) ∧
      sib.items = node.items.drop (node.items.length / 2) ∧
      left.count = node.items.length / 2 ∧
      sib.count = node.items.length - node.items.length / 2 ∧
      cacheGet s1.nodeCache node.id = some left ∧
      cacheGet s1.nodeCache sib.id = some sib ∧
      (254 ≤ node.items.length → MinItems ≤ left.count ∧ MinItems ≤ sib.count) := by
  have hcl : (node.items.take (node.items.length / 2)).length = node.items.length / 2 := by
    simp [List.length_take]
    omega
  have hcs : (node.items.drop (node.items.length / 2)).length
      = node.items.length - node.items.length / 2 := by
    simp [List.length_drop]
  simp only [splitLeafF, touchNode, Storage.PutNode, htx, if_true]
  refine ⟨_, _, _, rfl, rfl, rfl, rfl, rfl, ?_, ?_, ?_, ?_, ?_⟩
  · dsimp only
    rw [hcl, Nat.mod_eq_of_lt (by omega)]
  · dsimp only
    rw [hcs, Nat.mod_eq_of_lt (by omega)]
  · dsimp only [NewLeafNode]
    rw [cacheGet_cons_ne _ _ _ _ hfresh, cacheGet_cons_self]
  · dsimp only [NewLeafNode]
    exact cacheGet_cons_self _ _ _
  · intro hbig
    dsimp only
    rw [hcl, hcs, Nat.mod_eq_of_lt (by omega), Nat.mod_eq_of_lt (by omega)]
    simp only [MinItems, MaxItems]
    omega

/-- C1: the claim asserts that after every sequence of successful Puts
within the size bounds, Get returns the last put value, in particular
across insertions that split the root leaf.  The code refutes it: after
the three successful Puts of `threeBigPuts` and the successful
`splitPut` of key `[97]` (which splits the root leaf and sends the new
key into the left half, whose clone the parent never references), a Get
of `[97]` fails with KeyNotFound even though its Put succeeded. -/
theorem c1_round_trip_lost_key_after_split :
    bigValue.length ≤ MaxValueSize ∧
    (runPuts openedStorage threeBigPuts).1 = .ok () ∧
    splitPut.1 = .ok () ∧
    (BTree.Get splitPut.2 [97]).1 = .error .keyNotFound :=
  ⟨by decide, by decide, by decide, by decide⟩

/-- C3: the claim asserts that every Put returning an error leaves the
committed state unchanged (abort restores the root, Get unchanged).  The
code refutes it: after `threeBigPuts`, the Put of key `[97]` with a
999-byte value fails at commit-time serialisation (`NodeSizeExceeded`),
yet it leaves the transaction open, the root moved from page 4 to the
un-persistable clone 5, and a subsequent Get of `[97]` returns the new
value instead of the pre-Put KeyNotFound. -/
theorem c3_failed_put_leaves_visible_effect :
    (runPuts openedStorage threeBigPuts).1 = .ok () ∧
    (BTree.Get s3base [97]).1 = .error .keyNotFound ∧
    failedPut.1 = .error (.nodeSizeExceeded 4097) ∧
    failedPut.2.transaction = true ∧
    s3base.rootNodeID = 4 ∧
    failedPut.2.rootNodeID = 5 ∧
    (BTree.Get failedPut.2 [97]).1 = .ok midValue :=
  ⟨by decide, by decide, by decide, by decide, by decide, by decide, by decide⟩

/-- C4 counterexample: the claim asserts that when Put finds the key
already present in a leaf, the value is overwritten on a clone, never on
the original node object.  The code refutes it: the second Put of key
`[107]` overwrites the value on the node cached under the same PageId 2
and allocates no new page (`nextNodeID` stays 3), so no clone exists. -/
theorem c4_overwrite_mutates_original_without_clone :
    (runPuts openedStorage [([107], [49])]).1 = .ok () ∧
    overwriteBase.rootNodeID = 2 ∧
    overwriteBase.nodePool.nextNodeID = 3 ∧
    (cacheGet overwriteBase.nodeCache 2).map Node.items = some [⟨[107], [49]⟩] ∧
    overwritePut.1 = .ok () ∧
    overwritePut.2.rootNodeID = 2 ∧
    overwritePut.2.nodePool.nextNodeID = 3 ∧
    (cacheGet overwritePut.2.nodeCache 2).map Node.items = some [⟨[107], [50]⟩] :=
  ⟨by decide, by decide, by decide, by decide, by decide, by decide, by decide, by decide⟩

/-- Witness for the amended C4 theorem at a concrete leaf and storage. -/
theorem c4_clone_discipline_witness :
    (0 ≤ c4WitnessNode.FindKey [5] →
      ∃ n1 s1, insertF (0 + 1) c4WitnessStorage c4WitnessNode [5] [7] = (.ok (n1, false), s1) ∧
        n1.id = c4WitnessNode.id ∧
        n1.items = c4WitnessNode.items.set (c4WitnessNode.FindKey [5]).toNat
          { itemAt c4WitnessNode.items (c4WitnessNode.FindKey [5]) with value := [7] } ∧
        s1.nodePool = c4WitnessStorage.nodePool ∧
        cacheGet s1.nodeCache c4WitnessNode.id = some n1) ∧
    (c4WitnessNode.FindKey [5] < 0 →
      estimateNodeSize c4WitnessNode (some ⟨[5], [7]⟩) (-1) ≤ NodeSize →
      c4WitnessNode.items.length + 1 ≤ MaxItems →
      ∃ n2 s2, insertF (0 + 1) c4WitnessStorage c4WitnessNode [5] [7] = (.ok (n2, false), s2) ∧
        n2.id = (c4WitnessStorage.nodePool.Allocate).1 ∧ n2.id ≠ c4WitnessNode.id ∧
        n2.items = addItemList ⟨[5], [7]⟩ c4WitnessNode.items ∧
        cacheGet s2.nodeCache c4WitnessNode.id = cacheGet c4WitnessStorage.nodeCache c4WitnessNode.id ∧
        cacheGet s2.nodeCache n2.id = some n2) :=
  c4_clone_discipline 0 c4WitnessStorage c4WitnessNode [5] [7] rfl rfl (by decide)

/-- C5: the claim asserts each key appears in exactly one reachable leaf
and that after a split the parent references the post-split halves.  The
code refutes it: after `splitPut`, the new root 7 has children `[4, 6]`,
where 4 is the pre-split original leaf (it was the root before the Put)
still holding all three keys, and 6 is the right half, so keys `[99]`
and `[100]` each live in two distinct reachable leaves. -/
theorem c5_duplicate_keys_reachable_after_split :
    splitPut.1 = .ok () ∧
    s3base.rootNodeID = 4 ∧
    splitPut.2.rootNodeID = 7 ∧
    (cacheGet splitPut.2.nodeCache 7).map (fun n => (n.nodeType, n.children, n.items.map Item.key))
      = some (InternalNode, [4, 6], [[99]]) ∧
    (cacheGet splitPut.2.nodeCache 4).map (fun n => (n.nodeType, n.items.map Item.key))
      = some (LeafNode, [[98], [99], [100]]) ∧
    (cacheGet splitPut.2.nodeCache 6).map (fun n => (n.nodeType, n.items.map Item.key))
      = some (LeafNode, [[99], [100]]) :=
  ⟨by decide, by decide, by decide, by decide, by decide, by decide⟩

/-- C6 counterexample: the claim asserts every non-root reachable node
has at least MIN_ITEMS = 127 items.  The code refutes it: after
`splitPut`, leaf 6 is a child of the root (id 7) and holds 2 items. -/
theorem c6_underfull_nonroot_leaf_after_split :
    splitPut.1 = .ok () ∧
    splitPut.2.rootNodeID = 7 ∧
    (cacheGet splitPut.2.nodeCache 7).map Node.children = some [4, 6] ∧
    (cacheGet splitPut.2.nodeCache 6).map Node.count = some 2 ∧
    2 < MinItems :=
  ⟨by decide, by decide, by decide, by decide, by decide⟩

/-- Witness for the amended C6 theorem at a concrete four-item leaf. -/
theorem c6_split_halves_witness :
    ∃ s1 left sib,
      splitLeafF c6WitnessStorage c6WitnessNode = (.ok (left, sib), s1) ∧
      left.id = c6WitnessNode.id ∧ sib.id = (c6WitnessStorage.nodePool.Allocate).1 ∧
      left.items = c6WitnessNode.items.take (c6WitnessNode.items.length / 2) ∧
      sib.items = c6WitnessNode.items.drop (c6WitnessNode.items.length / 2) ∧
      left.count = c6WitnessNode.items.length / 2 ∧
      sib.count = c6WitnessNode.items.length - c6WitnessNode.items.length / 2 ∧
      cacheGet s1.nodeCache c6WitnessNode.id = some left ∧
      cacheGet s1.nodeCache sib.id = some sib ∧
      (254 ≤ c6WitnessNode.items.length →
        MinItems ≤ left.count ∧ MinItems ≤ sib.count) :=
  c6_split_halves c6WitnessStorage c6WitnessNode rfl (by decide) (by decide)

/-- C7: the claim asserts the pre-split size estimate prevents any node
whose pre-padding size exceeds PAGE_SIZE from reaching serialisation.
The code refutes it: the estimator charges 16 header bytes while the
serialiser writes 19, so after `threeBigPuts` the Put of `[97]` with a
999-byte value passes the estimate (4094 ≤ 4096) yet hands commit a
node of true pre-padding size 4097, and the NodeSizeExceeded error
escapes to the caller. -/
theorem c7_size_estimate_misses_serialize_failure :
    (runPuts openedStorage threeBigPuts).1 = .ok () ∧
    midValue.length ≤ MaxValueSize ∧
    failedPut.1 = .error (.nodeSizeExceeded 4097) ∧
    (cacheGet failedPut.2.nodeCache 5).map
        (fun n => (estimateNodeSize n none (-1), contentSize n))
      = some (4094, 4097) ∧
    NodeHeaderSize = 16 :=
  ⟨by decide, by decide, by decide, by decide, by decide⟩

/-- C8 counterexample: the claim places reserved slack at offsets 11–16,
the parent field at offset 16 and the first item record at offset 24.
The code refutes it: serialising a leaf with parent 258 puts the parent
bytes at offsets 11–19 (and offsets 11–16 are not zero slack), not 16–24. -/
theorem c8_parent_field_not_at_offset_16 :
    layoutProbeNode.Serialize = .ok layoutProbePage ∧
    layoutProbeNode.parent = 258 ∧
    (layoutProbePage.drop 16).take 8 ≠ bytesLE 8 layoutProbeNode.parent ∧
    (layoutProbePage.drop 11).take 8 = bytesLE 8 layoutProbeNode.parent ∧
    (layoutProbePage.drop 11).take 5 ≠ List.replicate 5 0 :=
  ⟨rfl, rfl, by decide, by decide, by decide⟩

/-- Witness for the amended C8 layout theorem at a concrete node. -/
theorem c8_layout_witness :
    layoutProbePage.length = NodeSize ∧
    layoutProbePage.take 8 = bytesLE 8 layoutProbeNode.id ∧
    (layoutProbePage.drop 8).take 1 = [layoutProbeNode.nodeType % 256] ∧
    (layoutProbePage.drop 9).take 2 = bytesLE 2 layoutProbeNode.count ∧
    (layoutProbePage.drop 11).take 8 = bytesLE 8 layoutProbeNode.parent ∧
    layoutProbePage.drop 19 = (layoutProbeNode.items.map itemBytes).flatten
      ++ childrenBytes layoutProbeNode
      ++ List.replicate (NodeSize - contentSize layoutProbeNode) 0 ∧
    layoutProbePage.drop (contentSize layoutProbeNode)
      = List.replicate (NodeSize - contentSize layoutProbeNode) 0 :=
  c8_layout layoutProbeNode layoutProbePage rfl

/-- Witness for the C2 commit theorem at a concrete one-dirty-node storage. -/
theorem c2_commit_protocol_witness :
    (∃ s1, commitWitnessStorage.CommitTransaction true = (.ok (), s1) ∧
       s1.transaction = false ∧ s1.dirtyNodes = [] ∧
       s1.rootNodeID = commitWitnessStorage.rootNodeID ∧
       s1.events = commitWitnessStorage.events
         ++ commitWitnessStorage.dirtyNodes.map (dirtyWriteEvent commitWitnessStorage)
         ++ [IOEvent.writeAt 0 (headerPage commitWitnessStorage), IOEvent.fsync]) ∧
    (headerPage commitWitnessStorage).length = HeaderSize ∧
    headerPage commitWitnessStorage = bytesLE 4 MagicNumber ++ bytesLE 4 FormatVersion
      ++ bytesLE 8 commitWitnessStorage.rootNodeID
      ++ bytesLE 8 commitWitnessStorage.nodePool.nextNodeID
      ++ bytesLE 4 (min commitWitnessStorage.nodePool.freeNodeIDs.length maxFreeInHeader)
      ++ ((commitWitnessStorage.nodePool.freeNodeIDs.take maxFreeInHeader).map (bytesLE 8)).flatten
      ++ List.replicate (HeaderSize - (headerContent commitWitnessStorage).length) 0 ∧
    (∃ s2, commitWitnessStorage.CommitTransaction false = (.error .syncFailed, s2) ∧
       s2.transaction = true ∧ s2.dirtyNodes = commitWitnessStorage.dirtyNodes) :=
  c2_commit_protocol commitWitnessStorage rfl (by decide)

/-- Witness for the C9 allocator theorem at a concrete pool and call list. -/
theorem c9_allocator_witness :
    ((NodePool.mk [5] 7).freeNodeIDs ≠ [] →
      ((NodePool.mk [5] 7).Allocate).1 = (NodePool.mk [5] 7).freeNodeIDs.getLastD 0 ∧
      ((NodePool.mk [5] 7).Allocate).2
        = { NodePool.mk [5] 7 with freeNodeIDs := (NodePool.mk [5] 7).freeNodeIDs.dropLast }) ∧
    ((NodePool.mk [5] 7).freeNodeIDs = [] →
      ((NodePool.mk [5] 7).Allocate).1 = (NodePool.mk [5] 7).nextNodeID ∧
      ((NodePool.mk [5] 7).Allocate).2
        = { NodePool.mk [5] 7 with nextNodeID := ((NodePool.mk [5] 7).nextNodeID + 1) % 2 ^ 64 }) ∧
    (NodePool.mk [5] 7).Free 0 = NodePool.mk [5] 7 ∧
    (NodePool.mk [5] 7).Free 9
      = { NodePool.mk [5] 7 with freeNodeIDs := (NodePool.mk [5] 7).freeNodeIDs ++ [9] } ∧
    ((runPool [PoolOp.alloc, PoolOp.free 3]).Allocate).1 ≠ 0 :=
  c9_allocator (NodePool.mk [5] 7) 9 [PoolOp.alloc, PoolOp.free 3] (by decide) (by decide)

/-- Witness for the C10 round-trip theorem at a concrete internal node. -/
theorem c10_roundtrip_witness :
    roundtripProbeNode.Serialize = .ok (pageOf roundtripProbeNode) ∧
    DeserializeNode (pageOf roundtripProbeNode) = some roundtripProbeNode :=
  c10_roundtrip roundtripProbeNode rfl (Or.inr rfl) (by decide) (by decide) (by decide)
    (by decide) (by decide) (by decide)

end Conure
